import Mathlib

/-!
Verification of the webtags native host (src/native-host/src).

This file shallowly embeds the persistence-and-synchronization engine of the
webtags repository: the bookmark/tag document model with its validation and
hierarchy algorithms (storage.rs), the encrypted-at-rest storage layer
(encryption.rs, storage.rs), the git-backed synchronization engine (git.rs),
and the session orchestrator (main.rs).  Pure Rust functions become Lean
functions; the filesystem, the keychain and the git working tree become
explicit state records; fallible Rust functions returning anyhow::Result
become Except String valued functions.

External crates are modelled by their documented contracts and each such
modelling choice is recorded in a doc comment at the definition site.
-/

namespace Webtags

/-- Timestamp `chrono::DateTime<Utc>` (external crate), modelled by the
RFC 3339 rendering that its serde instance writes.  The chrono contract is
that serializing a timestamp and parsing the result yields the same
timestamp, so the model carries the rendered string itself. -/
structure DateTimeUtc where
  rfc3339 : String
deriving DecidableEq

/-- Struct `JsonApiVersion` of storage.rs. -/
structure JsonApiVersion where
  version : String
deriving DecidableEq

/-- Struct `BookmarkAttributes` of storage.rs. -/
structure BookmarkAttributes where
  url : String
  title : String
  created : DateTimeUtc
  modified : Option DateTimeUtc
  notes : Option String
deriving DecidableEq

/-- Struct `ResourceIdentifier` of storage.rs (`resource_type` is the field
serialized under the key "type"). -/
structure ResourceIdentifier where
  resource_type : String
  id : String
deriving DecidableEq

/-- Struct `RelationshipData` of storage.rs. -/
structure RelationshipData where
  data : List ResourceIdentifier
deriving DecidableEq

/-- Struct `BookmarkRelationships` of storage.rs. -/
structure BookmarkRelationships where
  tags : Option RelationshipData
deriving DecidableEq

/-- Struct `TagAttributes` of storage.rs. -/
structure TagAttributes where
  name : String
  color : Option String
  description : Option String
deriving DecidableEq

/-- Struct `ParentRelationship` of storage.rs.  Note that its `data` field is
an `Option` without a skip-if-none attribute. -/
structure ParentRelationship where
  data : Option ResourceIdentifier
deriving DecidableEq

/-- Struct `TagRelationships` of storage.rs. -/
structure TagRelationships where
  parent : Option ParentRelationship
deriving DecidableEq

/-- Enum `Resource` of storage.rs: the closed tagged union of the two
resource variants. -/
inductive Resource where
  | bookmark (id : String) (attributes : BookmarkAttributes)
      (relationships : Option BookmarkRelationships)
  | tag (id : String) (attributes : TagAttributes)
      (relationships : Option TagRelationships)
deriving DecidableEq

/-- Struct `BookmarksData` of storage.rs: the document root. -/
structure BookmarksData where
  jsonapi : JsonApiVersion
  data : List Resource
  included : Option (List Resource)
deriving DecidableEq

/-- Identifier of a resource, as extracted by the `match` arms in
`BookmarksData::validate`. -/
def Resource.rid : Resource → String
  | .bookmark id _ _ => id
  | .tag id _ _ => id

/-- Test for the Bookmark variant (`matches!(r, Resource::Bookmark { .. })`). -/
def Resource.isBookmark : Resource → Bool
  | .bookmark _ _ _ => true
  | .tag _ _ _ => false

/-- Test for the Tag variant (`matches!(r, Resource::Tag { .. })`). -/
def Resource.isTag : Resource → Bool
  | .bookmark _ _ _ => false
  | .tag _ _ _ => true

/-- `BookmarksData::new`: empty document with format version "1.1". -/
def BookmarksData.new : BookmarksData :=
  { jsonapi := { version := "1.1" }, data := [], included := none }

/-- `BookmarksData::add_bookmark`: push onto the primary list, or fail on the
Tag variant. -/
def BookmarksData.add_bookmark (d : BookmarksData) (r : Resource) :
    Except String BookmarksData :=
  match r with
  | .bookmark _ _ _ => .ok { d with data := d.data ++ [r] }
  | .tag _ _ _ => .error "Expected bookmark resource"

/-- `BookmarksData::add_tag`: push onto the `included` list (created as empty
if absent), or fail on the Bookmark variant. -/
def BookmarksData.add_tag (d : BookmarksData) (r : Resource) :
    Except String BookmarksData :=
  match r with
  | .tag _ _ _ => .ok { d with included := some (d.included.getD [] ++ [r]) }
  | .bookmark _ _ _ => .error "Expected tag resource"

/-- `BookmarksData::get_bookmarks`: filter the primary list by variant. -/
def BookmarksData.get_bookmarks (d : BookmarksData) : List Resource :=
  d.data.filter Resource.isBookmark

/-- `BookmarksData::get_tags`: tags of the primary list followed by tags of
the `included` list. -/
def BookmarksData.get_tags (d : BookmarksData) : List Resource :=
  d.data.filter Resource.isTag ++ (d.included.getD []).filter Resource.isTag

/-- Lookup in an association list, first binding wins.  Used to model
reading from the identifier-keyed maps built per query. -/
def lookupAssoc {α : Type} : List (String × α) → String → Option α
  | [], _ => none
  | (k2, v) :: rest, k => if k2 = k then some v else lookupAssoc rest k

/-- Overwriting insert into an association list.  Models
`std::collections::HashMap::insert` (a later insert for the same key
replaces the earlier binding). -/
def setAssoc {α : Type} : List (String × α) → String → α → List (String × α)
  | [], k, v => [(k, v)]
  | (k2, v2) :: rest, k, v =>
    if k2 = k then (k, v) :: rest else (k2, v2) :: setAssoc rest k v

/-- The `tags_by_id` map built at the start of
`BookmarksData::get_tag_breadcrumb`: every tag of the document keyed by its
identifier, later occurrences overwriting earlier ones as in
`HashMap::collect`. -/
def BookmarksData.tags_by_id (d : BookmarksData) :
    List (String × (TagAttributes × Option TagRelationships)) :=
  (d.get_tags.filterMap fun r =>
      match r with
      | .tag id attrs rels => some (id, (attrs, rels))
      | .bookmark _ _ _ => none).foldl
    (fun m kv => setAssoc m kv.1 kv.2) []

theorem lookupAssoc_mem {α : Type} (m : List (String × α)) (k : String) (v : α)
    (h : lookupAssoc m k = some v) : k ∈ m.map Prod.fst := by
  induction m with
  | nil => simp [lookupAssoc] at h
  | cons hd tl ih =>
    rw [lookupAssoc] at h
    by_cases hk : hd.1 = k
    · simp [hk]
    · simp only [hk, if_false] at h
      simp [ih h]

theorem length_filter_not_mem_le (l : List String) (v : List String)
    (c : String) :
    (l.filter fun k => decide (k ∉ c :: v)).length ≤
      (l.filter fun k => decide (k ∉ v)).length := by
  induction l with
  | nil => simp
  | cons a l ih =>
    by_cases hav : a ∈ v
    · have h1 : (decide (a ∉ c :: v)) = false := by
        simp [hav]
      have h2 : (decide (a ∉ v)) = false := by simp [hav]
      simp only [List.filter, h1, h2]
      exact ih
    · by_cases hac : a = c
      · subst hac
        have h2 : (decide (a ∉ v)) = true := by simp [hav]
        simp only [List.filter, h2]
        by_cases h1 : a ∈ a :: v
        · have h1d : (decide (a ∉ a :: v)) = false := by simp
          simp only [h1d]
          exact Nat.le_succ_of_le ih
        · simp at h1
      · have h1 : (decide (a ∉ c :: v)) = decide (a ∉ v) := by
          simp [List.mem_cons, hac]
        simp only [List.filter, h1]
        by_cases h2 : a ∈ v
        · exact absurd h2 hav
        · have h2d : (decide (a ∉ v)) = true := by simp [hav]
          simp only [h2d]
          exact Nat.succ_le_succ ih

theorem length_filter_not_mem_lt (l : List String) (v : List String)
    (c : String) (hc : c ∈ l) (hcv : c ∉ v) :
    (l.filter fun k => decide (k ∉ c :: v)).length <
      (l.filter fun k => decide (k ∉ v)).length := by
  induction l with
  | nil => simp at hc
  | cons a l ih =>
    by_cases hac : a = c
    · subst hac
      have h1 : (decide (a ∉ a :: v)) = false := by simp
      have h2 : (decide (a ∉ v)) = true := by simp [hcv]
      simp only [List.filter, h1, h2]
      exact Nat.lt_succ_of_le (length_filter_not_mem_le l v a)
    · have hc' : c ∈ l := by
        rcases List.mem_cons.mp hc with h | h
        · exact absurd h.symm hac
        · exact h
      have h1 : (decide (a ∉ c :: v)) = decide (a ∉ v) := by
        simp [List.mem_cons, hac]
      by_cases h2 : a ∈ v
      · have h2d : (decide (a ∉ v)) = false := by simp [h2]
        simp only [List.filter, h1, h2d]
        exact ih hc'
      · have h2d : (decide (a ∉ v)) = true := by simp [h2]
        simp only [List.filter, h1, h2d]
        exact Nat.succ_lt_succ (ih hc')

/-- Loop body of `BookmarksData::get_tag_breadcrumb`: walk parent references
upward from `current`, prepending each visited tag name, maintaining the
visited set and stopping the instant an already-visited identifier is seen
again, or when the identifier is unknown, or when there is no parent
reference.  Termination: every recursive step consumes one not-yet-visited
key of the map. -/
def breadcrumb_loop (m : List (String × (TagAttributes × Option TagRelationships)))
    (current : String) (visited : List String) (acc : List String) :
    List String :=
  if current ∈ visited then acc
  else
    match h : lookupAssoc m current with
    | none => acc
    | some pr =>
      match pr.2 with
      | some rels =>
        match rels.parent with
        | some parent_rel =>
          match parent_rel.data with
          | some parent_id =>
              breadcrumb_loop m parent_id.id (current :: visited)
                (pr.1.name :: acc)
          | none => pr.1.name :: acc
        | none => pr.1.name :: acc
      | none => pr.1.name :: acc
termination_by ((m.map Prod.fst).filter fun k => decide (k ∉ visited)).length
decreasing_by
  exact length_filter_not_mem_lt _ _ _ (lookupAssoc_mem m current pr h)
    (by assumption)

/-- `BookmarksData::get_tag_breadcrumb`: breadcrumb path for a tag, starting
from an empty visited set and an empty accumulator. -/
def BookmarksData.get_tag_breadcrumb (d : BookmarksData) (tag_id : String) :
    List String :=
  breadcrumb_loop d.tags_by_id tag_id [] []

/-- Characters strictly before the first colon of a string, or `none` when
the string has no colon. -/
def schemeChars : List Char → Option (List Char)
  | [] => none
  | ':' :: _ => some []
  | c :: rest => (schemeChars rest).map (c :: ·)

/-- The `String::contains(char)` test, evaluated over the character list. -/
def strContainsChar (s : String) (c : Char) : Bool :=
  s.data.contains c

/-- Scheme extraction of the external url crate (`Url::parse` followed by
`.scheme()`), modelled from its documented contract: a URL begins with an
RFC 3986 scheme (one alphabetic character followed by alphanumerics, plus,
minus or dot) terminated by a colon, and the crate lowercases the scheme.
Inputs without such a prefix do not parse.  The model accepts some strings
with a valid scheme prefix that the crate would reject for a malformed
remainder; no claim in this development depends on those inputs. -/
def url_scheme (s : String) : Option String :=
  match schemeChars s.data with
  | none => none
  | some [] => none
  | some (c :: cs) =>
    if c.isAlpha && cs.all (fun ch => ch.isAlphanum || ch == '+' || ch == '-' || ch == '.')
    then some (String.mk ((c :: cs).map Char.toLower))
    else none

/-- Function `validate_bookmark_url` of storage.rs: reject empty URLs, URLs
over 2048 bytes, unparseable URLs, and schemes other than http or https. -/
def validate_bookmark_url (url : String) : Except String Unit :=
  if url.isEmpty then .error "URL cannot be empty"
  else if url.utf8ByteSize > 2048 then .error "URL too long (max 2048 characters)"
  else
    match url_scheme url with
    | none => .error "Invalid URL format"
    | some s =>
      if s = "http" ∨ s = "https" then .ok ()
      else .error "Unsafe URL scheme. Only http and https are allowed."

/-- Per-resource loop of `BookmarksData::validate` over the primary `data`
list: field invariants for each variant, then identifier uniqueness against
the identifiers seen so far. -/
def validate_data_loop : List Resource → List String → Except String (List String)
  | [], ids => .ok ids
  | r :: rest, ids =>
    match r with
    | .bookmark rid attrs _ =>
      match validate_bookmark_url attrs.url with
      | .error m => .error m
      | .ok () =>
        if attrs.title.utf8ByteSize > 500 then
          .error "Bookmark title too long (max 500 characters)"
        else if rid ∈ ids then .error ("Duplicate resource ID: " ++ rid)
        else validate_data_loop rest (rid :: ids)
    | .tag rid attrs _ =>
      if attrs.name.isEmpty || attrs.name.utf8ByteSize > 100 then
        .error "Tag name must be between 1-100 characters"
      else if strContainsChar attrs.name '<' || strContainsChar attrs.name '>' then
        .error "Tag name cannot contain HTML characters"
      else if rid ∈ ids then .error ("Duplicate resource ID: " ++ rid)
      else validate_data_loop rest (rid :: ids)

/-- Per-resource loop of `BookmarksData::validate` over the `included` list:
only identifier uniqueness is checked there (the source extracts the `id` of
either variant and never inspects the attributes). -/
def validate_included_loop : List Resource → List String → Except String (List String)
  | [], ids => .ok ids
  | r :: rest, ids =>
    if r.rid ∈ ids then .error ("Duplicate resource ID: " ++ r.rid)
    else validate_included_loop rest (r.rid :: ids)

/-- `BookmarksData::validate`: format-version check, then the primary-list
loop, then the included-list loop. -/
def BookmarksData.validate (d : BookmarksData) : Except String Unit :=
  if d.jsonapi.version ≠ "1.1" then
    .error ("Invalid JSON API version: " ++ d.jsonapi.version)
  else
    match validate_data_loop d.data [] with
    | .error m => .error m
    | .ok ids =>
      match d.included with
      | none => .ok ()
      | some inc =>
        match validate_included_loop inc ids with
        | .error m => .error m
        | .ok _ => .ok ()

/-! ## JSON value layer

serde_json (external crate) maps Rust values to JSON text.  The model works
at the level of JSON values: printing a value to text and parsing the text
back yields the same value (serde_json contract), so the text layer is
elided and the derived serde codecs of storage.rs are embedded as functions
between Rust-modelled values and `Json` trees. -/

/-- JSON value tree, the shape of `serde_json::Value` as used by the codecs
of this development. -/
inductive Json where
  | jnull
  | jbool (b : Bool)
  | jnum (n : Int)
  | jstr (s : String)
  | jarr (elems : List Json)
  | jobj (fields : List (String × Json))

mutual

/-- Structural equality test on JSON values. -/
def Json.beq : Json → Json → Bool
  | .jnull, .jnull => true
  | .jbool a, .jbool b => a == b
  | .jnum a, .jnum b => a == b
  | .jstr a, .jstr b => a == b
  | .jarr xs, .jarr ys => Json.beqList xs ys
  | .jobj xs, .jobj ys => Json.beqObj xs ys
  | _, _ => false

/-- Pointwise equality test on JSON arrays. -/
def Json.beqList : List Json → List Json → Bool
  | [], [] => true
  | x :: xs, y :: ys => Json.beq x y && Json.beqList xs ys
  | _, _ => false

/-- Pointwise equality test on JSON object field lists. -/
def Json.beqObj : List (String × Json) → List (String × Json) → Bool
  | [], [] => true
  | (k1, v1) :: xs, (k2, v2) :: ys =>
    k1 == k2 && Json.beq v1 v2 && Json.beqObj xs ys
  | _, _ => false

end

instance : BEq Json := ⟨Json.beq⟩

/-- String extraction used by the decoders. -/
def Json.asStr : Json → Option String
  | .jstr s => some s
  | _ => none

/-- Element-wise decoding of a JSON array, failing fast on the first element
that does not decode.  This is how serde deserializes a `Vec`. -/
def mapMOpt {α β : Type} (f : α → Option β) : List α → Option (List β)
  | [] => some []
  | x :: xs => do
    let y ← f x
    let ys ← mapMOpt f xs
    some (y :: ys)

/-- Encoder part of `#[serde(skip_serializing_if = "Option::is_none")]`: a
present optional field contributes one object entry, an absent one none. -/
def optEntry {α : Type} (toJ : α → Json) (k : String) : Option α → List (String × Json)
  | none => []
  | some v => [(k, toJ v)]

/-- Decoder of an optional struct field: a missing key or an explicit null
decodes to `none`, any other present value must decode with `fromJ`.  This is
the serde derive behavior for `Option` fields. -/
def optField {α : Type} (fromJ : Json → Option α)
    (fs : List (String × Json)) (k : String) : Option (Option α) :=
  match lookupAssoc fs k with
  | none => some none
  | some .jnull => some none
  | some j => (fromJ j).map some

/-- serde encoder of `chrono::DateTime<Utc>`: the RFC 3339 rendering as a
JSON string. -/
def DateTimeUtc.toJson (t : DateTimeUtc) : Json := .jstr t.rfc3339

/-- serde decoder of `chrono::DateTime<Utc>`.  The model accepts any string
and keeps it verbatim; chrono additionally rejects strings that are not
valid RFC 3339, but on every string chrono itself renders the parse returns
the rendered timestamp (crate contract), which is what the model captures. -/
def DateTimeUtc.fromJson : Json → Option DateTimeUtc
  | .jstr s => some ⟨s⟩
  | _ => none

/-- serde encoder of `ResourceIdentifier` (field `resource_type` renamed to
"type"). -/
def ResourceIdentifier.toJson (r : ResourceIdentifier) : Json :=
  .jobj [("type", .jstr r.resource_type), ("id", .jstr r.id)]

/-- serde decoder of `ResourceIdentifier`. -/
def ResourceIdentifier.fromJson : Json → Option ResourceIdentifier
  | .jobj fs => do
    let t ← (← lookupAssoc fs "type").asStr
    let i ← (← lookupAssoc fs "id").asStr
    some ⟨t, i⟩
  | _ => none

/-- serde encoder of `RelationshipData`. -/
def RelationshipData.toJson (rd : RelationshipData) : Json :=
  .jobj [("data", .jarr (rd.data.map ResourceIdentifier.toJson))]

/-- serde decoder of `RelationshipData`. -/
def RelationshipData.fromJson : Json → Option RelationshipData
  | .jobj fs => do
    match ← lookupAssoc fs "data" with
    | .jarr xs => do
      let l ← mapMOpt ResourceIdentifier.fromJson xs
      some ⟨l⟩
    | _ => none
  | _ => none

/-- serde encoder of `BookmarkRelationships` (`tags` is skip-if-none). -/
def BookmarkRelationships.toJson (br : BookmarkRelationships) : Json :=
  .jobj (optEntry RelationshipData.toJson "tags" br.tags)

/-- serde decoder of `BookmarkRelationships`. -/
def BookmarkRelationships.fromJson : Json → Option BookmarkRelationships
  | .jobj fs => do
    let t ← optField RelationshipData.fromJson fs "tags"
    some ⟨t⟩
  | _ => none

/-- serde encoder of `ParentRelationship`: its `data` field is a plain
`Option` without skip-if-none, so an absent parent is written as an explicit
null. -/
def ParentRelationship.toJson (p : ParentRelationship) : Json :=
  .jobj [("data", match p.data with
    | none => .jnull
    | some r => r.toJson)]

/-- serde decoder of `ParentRelationship`. -/
def ParentRelationship.fromJson : Json → Option ParentRelationship
  | .jobj fs => do
    let d ← optField ResourceIdentifier.fromJson fs "data"
    some ⟨d⟩
  | _ => none

/-- serde encoder of `TagRelationships` (`parent` is skip-if-none). -/
def TagRelationships.toJson (tr : TagRelationships) : Json :=
  .jobj (optEntry ParentRelationship.toJson "parent" tr.parent)

/-- serde decoder of `TagRelationships`. -/
def TagRelationships.fromJson : Json → Option TagRelationships
  | .jobj fs => do
    let p ← optField ParentRelationship.fromJson fs "parent"
    some ⟨p⟩
  | _ => none

/-- serde encoder of `BookmarkAttributes` (`modified` and `notes` are
skip-if-none). -/
def BookmarkAttributes.toJson (a : BookmarkAttributes) : Json :=
  .jobj ([("url", .jstr a.url), ("title", .jstr a.title),
          ("created", a.created.toJson)]
    ++ optEntry DateTimeUtc.toJson "modified" a.modified
    ++ optEntry Json.jstr "notes" a.notes)

/-- serde decoder of `BookmarkAttributes`. -/
def BookmarkAttributes.fromJson : Json → Option BookmarkAttributes
  | .jobj fs => do
    let url ← (← lookupAssoc fs "url").asStr
    let title ← (← lookupAssoc fs "title").asStr
    let created ← DateTimeUtc.fromJson (← lookupAssoc fs "created")
    let modified ← optField DateTimeUtc.fromJson fs "modified"
    let notes ← optField Json.asStr fs "notes"
    some ⟨url, title, created, modified, notes⟩
  | _ => none

/-- serde encoder of `TagAttributes` (`color` and `description` are
skip-if-none). -/
def TagAttributes.toJson (a : TagAttributes) : Json :=
  .jobj ([("name", .jstr a.name)]
    ++ optEntry Json.jstr "color" a.color
    ++ optEntry Json.jstr "description" a.description)

/-- serde decoder of `TagAttributes`. -/
def TagAttributes.fromJson : Json → Option TagAttributes
  | .jobj fs => do
    let name ← (← lookupAssoc fs "name").asStr
    let color ← optField Json.asStr fs "color"
    let description ← optField Json.asStr fs "description"
    some ⟨name, color, description⟩
  | _ => none

/-- serde encoder of the internally tagged enum `Resource`
(`#[serde(tag = "type", rename_all = "lowercase")]`). -/
def Resource.toJson : Resource → Json
  | .bookmark id attrs rels =>
    .jobj ([("type", .jstr "bookmark"), ("id", .jstr id),
            ("attributes", attrs.toJson)]
      ++ optEntry BookmarkRelationships.toJson "relationships" rels)
  | .tag id attrs rels =>
    .jobj ([("type", .jstr "tag"), ("id", .jstr id),
            ("attributes", attrs.toJson)]
      ++ optEntry TagRelationships.toJson "relationships" rels)

/-- serde decoder of `Resource`: dispatch on the "type" tag. -/
def Resource.fromJson : Json → Option Resource
  | .jobj fs => do
    let t ← (← lookupAssoc fs "type").asStr
    if t = "bookmark" then do
      let id ← (← lookupAssoc fs "id").asStr
      let attrs ← BookmarkAttributes.fromJson (← lookupAssoc fs "attributes")
      let rels ← optField BookmarkRelationships.fromJson fs "relationships"
      some (.bookmark id attrs rels)
    else if t = "tag" then do
      let id ← (← lookupAssoc fs "id").asStr
      let attrs ← TagAttributes.fromJson (← lookupAssoc fs "attributes")
      let rels ← optField TagRelationships.fromJson fs "relationships"
      some (.tag id attrs rels)
    else none
  | _ => none

/-- serde encoder of the document root `BookmarksData` (`included` is
skip-if-none). -/
def BookmarksData.toJson (d : BookmarksData) : Json :=
  .jobj ([("jsonapi", .jobj [("version", .jstr d.jsonapi.version)]),
          ("data", .jarr (d.data.map Resource.toJson))]
    ++ optEntry (fun l => Json.jarr (l.map Resource.toJson)) "included" d.included)

/-- serde decoder of `BookmarksData`. -/
def BookmarksData.fromJson : Json → Option BookmarksData
  | .jobj fs => do
    let v ←
      match ← lookupAssoc fs "jsonapi" with
      | .jobj jfs => (← lookupAssoc jfs "version").asStr
      | _ => none
    let data ←
      match ← lookupAssoc fs "data" with
      | .jarr xs => mapMOpt Resource.fromJson xs
      | _ => none
    let included ← optField
      (fun j =>
        match j with
        | .jarr xs => mapMOpt Resource.fromJson xs
        | _ => none) fs "included"
    some ⟨⟨v⟩, data, included⟩
  | _ => none

/-! ## Filesystem and encryption layer

Files live in an explicit finite map from absolute paths (component lists)
to file contents.  A file's content is classified by what its bytes are:
valid UTF-8 text parsing as a JSON value, valid UTF-8 text that is not
JSON, or bytes that are not valid UTF-8 (`std::fs::read_to_string` fails on
the latter).  The envelope struct `EncryptedData` of encryption.rs is kept
structurally: a file in the `env` class is one whose text parses as that
struct; a file in the `docJson` class is one whose text parses as the JSON
value carried but not as the envelope struct (a serialized `BookmarksData`
is always in this class, since its object lacks the envelope's mandatory
`encrypted`, `nonce` and `ciphertext` fields). -/

/-- Absolute filesystem path as its list of components from the root. -/
abbrev Path := List String

/-- Symbolic AES-256-GCM ciphertext (external aes_gcm crate), carrying the
key and nonce it was produced with and the plaintext it determines.  The
plaintext is `some j` when the encrypted bytes are UTF-8 text parsing as
the JSON value `j` (the only plaintexts this program produces), and `none`
for any other byte string.  This is the standard symbolic model of an
authenticated cipher: decryption with the matching key and nonce recovers
the plaintext, any other decryption attempt fails authentication. -/
structure CipherText where
  key : List Nat
  nonce : List Nat
  plain : Option Json
deriving BEq

/-- Struct `EncryptedData` of encryption.rs: the on-disk envelope.  The
`nonce` and `ciphertext` fields are serialized through base64; base64
round-trips (base64 crate contract), so the model keeps the raw bytes. -/
structure EncryptedData where
  version : String
  encrypted : Bool
  algorithm : String
  nonce : List Nat
  ciphertext : CipherText
deriving BEq

/-- Classified content of one file, as described in the section header. -/
inductive FileContent where
  | docJson (j : Json)
  | env (e : EncryptedData)
  | text
  | binary
deriving BEq

/-- Lookup of a path in the file map. -/
def lookupPath : List (Path × FileContent) → Path → Option FileContent
  | [], _ => none
  | (q, c) :: rest, p => if q = p then some c else lookupPath rest p

/-- Removal of a path from the file map. -/
def removePath : List (Path × FileContent) → Path → List (Path × FileContent)
  | [], _ => []
  | (q, c) :: rest, p =>
    if q = p then removePath rest p else (q, c) :: removePath rest p

/-- Overwriting insert into the file map. -/
def setPath (fs : List (Path × FileContent)) (p : Path) (c : FileContent) :
    List (Path × FileContent) :=
  (p, c) :: removePath fs p

/-- Primitive filesystem mutation: `std::fs::write` of a whole file, or
`std::fs::rename`. -/
inductive FsOp where
  | write (p : Path) (c : FileContent)
  | rename (src : Path) (dst : Path)

/-- Effect of one primitive filesystem operation.  `rename` moves the
content of `src` onto `dst`, replacing any previous content of `dst`. -/
def applyFsOp (fs : List (Path × FileContent)) : FsOp → List (Path × FileContent)
  | .write p c => setPath fs p c
  | .rename src dst =>
    match lookupPath fs src with
    | some c => setPath (removePath fs src) dst c
    | none => fs

/-- Effect of a sequence of filesystem operations. -/
def applyFsOps (fs : List (Path × FileContent)) (ops : List FsOp) :
    List (Path × FileContent) :=
  ops.foldl applyFsOp fs

/-- Helper on a reversed character list: drop the characters up to and
including the first dot. -/
def dropThroughDot : List Char → List Char
  | [] => []
  | '.' :: rest => rest
  | _ :: rest => dropThroughDot rest

/-- Rust `Path::set_extension("tmp")` on the final component: the portion of
the file name after its last dot is replaced by "tmp" (appended when the
name has no dot).  Rust's special case for names whose only dot is leading
(hidden files have no extension) is not reproduced; the one file name this
program passes here is "bookmarks.json". -/
def file_with_tmp_ext (f : String) : String :=
  if f.data.contains '.' then
    String.mk (dropThroughDot f.data.reverse).reverse ++ ".tmp"
  else f ++ ".tmp"

/-- The sibling temporary path `path.with_extension("tmp")` used by the
atomic writes of storage.rs and encryption.rs. -/
def with_tmp_extension (p : Path) : Path :=
  match p.getLast? with
  | none => p
  | some f => p.dropLast ++ [file_with_tmp_ext f]

/-- Ambient effectful context of one request: the key held in the platform
secret store, the fresh random nonce the OS would return (always 12 bytes,
the size `OsRng.fill_bytes` is asked for in `EncryptionManager::encrypt`),
and the outcomes of the network operations, which are outside this model. -/
structure Env where
  keychain : Option (List Nat)
  nonce : List Nat
  nonce_len : nonce.length = 12
  pushOk : Bool
  pullOk : Bool
  cloneOk : Bool

/-- Symbolic encryption: the ciphertext records key, nonce and plaintext. -/
def aead_encrypt (key nonce : List Nat) (plain : Option Json) : CipherText :=
  ⟨key, nonce, plain⟩

/-- Symbolic authenticated decryption: succeeds exactly for the matching key
and nonce. -/
def aead_decrypt (key nonce : List Nat) (ct : CipherText) : Option (Option Json) :=
  if ct.key = key ∧ ct.nonce = nonce then some ct.plain else none

/-- Struct `EncryptionManager` of encryption.rs. -/
structure EncryptionManager where
  enabled : Bool

/-- `EncryptionManager::encrypt`: refuse when not enabled, fetch the key
from the secret store (`get_key_from_keychain` fails when absent or not 32
bytes), draw the fresh nonce and encrypt. -/
def EncryptionManager.encrypt (m : EncryptionManager) (env : Env)
    (plain : Option Json) : Except String EncryptedData :=
  if !m.enabled then .error "Encryption is not enabled"
  else
    match env.keychain with
    | none => .error "Encryption key not found in Keychain"
    | some key =>
      if key.length ≠ 32 then .error "Invalid encryption key size"
      else .ok { version := "1", encrypted := true, algorithm := "AES-256-GCM",
                 nonce := env.nonce,
                 ciphertext := aead_encrypt key env.nonce plain }

/-- `EncryptionManager::decrypt`: check the `encrypted` flag and the
algorithm name before any key access, then fetch the key, check the nonce
size and decrypt.  The source method never reads the manager's `enabled`
flag. -/
def EncryptionManager.decrypt (_m : EncryptionManager) (env : Env)
    (e : EncryptedData) : Except String (Option Json) :=
  if !e.encrypted then .error "Data is not encrypted"
  else if e.algorithm ≠ "AES-256-GCM" then .error "Unsupported encryption algorithm"
  else
    match env.keychain with
    | none => .error "Encryption key not found in Keychain"
    | some key =>
      if key.length ≠ 32 then .error "Invalid encryption key size"
      else if e.nonce.length ≠ 12 then .error "Invalid nonce size"
      else
        match aead_decrypt key e.nonce e.ciphertext with
        | none => .error "Decryption failed"
        | some p => .ok p

/-- Function `is_encrypted` of encryption.rs: `Ok(false)` for a missing
path; otherwise read the file as text (an error for bytes that are not
valid UTF-8, from `fs::read_to_string`) and report the `encrypted` flag
when the text parses as the envelope, `Ok(false)` when it does not. -/
def is_encrypted (fs : List (Path × FileContent)) (p : Path) :
    Except String Bool :=
  match lookupPath fs p with
  | none => .ok false
  | some (.env e) => .ok e.encrypted
  | some .binary => .error "Failed to read file"
  | some _ => .ok false

/-- Result of `is_encrypted(...).unwrap_or(false)` as computed by
`read_from_file_with_encryption`. -/
def exceptBoolOrFalse : Except String Bool → Bool
  | .ok b => b
  | .error _ => false

/-- `EncryptionManager::read_encrypted_file`: read the file text, parse the
envelope, decrypt. -/
def EncryptionManager.read_encrypted_file (m : EncryptionManager) (env : Env)
    (fs : List (Path × FileContent)) (p : Path) : Except String (Option Json) :=
  match lookupPath fs p with
  | none => .error "Failed to read encrypted file"
  | some .binary => .error "Failed to read encrypted file"
  | some (.env e) => m.decrypt env e
  | some _ => .error "Failed to parse encrypted file"

/-- Decode of the document text followed by `validate`, the tail shared by
both branches of `read_from_file_with_encryption` (`serde_json::from_str`
then `data.validate()?`). -/
def decode_and_validate (j : Json) : Except String BookmarksData :=
  match BookmarksData.fromJson j with
  | none => .error "Failed to parse bookmarks JSON"
  | some d =>
    match d.validate with
    | .error m => .error m
    | .ok () => .ok d

/-- `read_from_file_with_encryption` of storage.rs: probe the envelope with
`is_encrypted(...).unwrap_or(false)`; on an encrypted file require the
caller's encryption flag and decrypt through a manager with encryption
enabled, otherwise read the text directly; then decode and validate.  The
two failures of the decrypted-bytes conversion (`String::from_utf8` and
JSON parse) are merged into the non-JSON plaintext case `none` of the
symbolic ciphertext. -/
def read_from_file_with_encryption (fs : List (Path × FileContent)) (p : Path)
    (encryption_enabled : Bool) (env : Env) : Except String BookmarksData :=
  let file_encrypted := exceptBoolOrFalse (is_encrypted fs p)
  if file_encrypted then
    if !encryption_enabled then
      .error "Bookmarks file is encrypted but encryption is not enabled. Enable encryption to access your bookmarks."
    else
      match EncryptionManager.read_encrypted_file ⟨true⟩ env fs p with
      | .error m => .error m
      | .ok none => .error "Decrypted data is not valid UTF-8"
      | .ok (some j) => decode_and_validate j
  else
    match lookupPath fs p with
    | none => .error "Failed to read bookmarks file"
    | some .binary => .error "Failed to read bookmarks file"
    | some (.docJson j) => decode_and_validate j
    | some (.env _) => .error "Failed to parse bookmarks JSON"
    | some .text => .error "Failed to parse bookmarks JSON"

/-- `read_from_file` of storage.rs: plain read. -/
def read_from_file (fs : List (Path × FileContent)) (p : Path) (env : Env) :
    Except String BookmarksData :=
  read_from_file_with_encryption fs p false env

/-- `write_to_file_with_encryption` of storage.rs, as the sequence of
filesystem operations it performs: validate first (no operation on
failure), serialize, optionally encrypt (`EncryptionManager::
write_encrypted_file`), then write the bytes to the sibling temporary path
and rename it onto the target.  Both the plaintext and the encrypted branch
perform exactly this atomic-replace pair. -/
def write_to_file_with_encryption (p : Path) (d : BookmarksData)
    (encryption_enabled : Bool) (env : Env) : Except String (List FsOp) :=
  match d.validate with
  | .error m => .error m
  | .ok () =>
    if encryption_enabled then
      match EncryptionManager.encrypt ⟨true⟩ env (some d.toJson) with
      | .error m => .error m
      | .ok e =>
        .ok [.write (with_tmp_extension p) (.env e),
             .rename (with_tmp_extension p) p]
    else
      .ok [.write (with_tmp_extension p) (.docJson d.toJson),
           .rename (with_tmp_extension p) p]

/-- `write_to_file` of storage.rs: plain atomic write. -/
def write_to_file (p : Path) (d : BookmarksData) (env : Env) :
    Except String (List FsOp) :=
  write_to_file_with_encryption p d false env

/-! ## Synchronization engine and session orchestrator

The git working tree is modelled by its staged index and its commit list
(newest first), each a map from repository-relative file names to
contents; the session world holds the file map, the set of existing
directories, the repository state and whether an "origin" remote is
configured.  Network outcomes (push, pull, clone) are inputs in `Env`. -/

/-- One commit: its message and the tree it snapshots. -/
structure GitCommit where
  message : String
  tree : List (String × FileContent)

/-- State of the repository: the staged index and the branch history,
newest commit first. -/
structure GitState where
  index : List (String × FileContent)
  commits : List GitCommit

/-- Fresh repository as produced by `Repository::init`. -/
def GitState.empty : GitState := ⟨[], []⟩

/-- World state threaded through the orchestrator: the global file map, the
existing directories, the session's repository (if one was opened) and the
presence of the "origin" remote. -/
structure World where
  files : List (Path × FileContent)
  dirs : List Path
  git : Option GitState
  originRemote : Bool

/-- Struct `HostConfig` of main.rs: the per-session mutable state. -/
structure HostConfig where
  repo_path : Option Path
  encryption_enabled : Bool

/-- Enum `Response` of lib.rs. -/
inductive Response where
  | success (message : String) (data : Option Json)
  | error (message : String) (code : Option String)
  | authflow (user_code : String) (verification_uri : String) (device_code : String)

/-- Repository-relative name of a path directly under `repo`. -/
def relUnderRepo (repo : Path) (p : Path) : Option String :=
  if repo.isPrefixOf p then
    match p.drop repo.length with
    | [f] => some f
    | _ => none
  else none

/-- Files of the working tree of `repo`, keyed by relative name. -/
def repoWorktree (files : List (Path × FileContent)) (repo : Path) :
    List (String × FileContent) :=
  files.filterMap fun e => (relUnderRepo repo e.1).map fun f => (f, e.2)

/-- `GitRepo::add_file`: stage the named file by copying its current
content from the working tree into the index; fails when the file does not
exist. -/
def gitAddFile (files : List (Path × FileContent)) (repo : Path)
    (g : GitState) (rel : String) : Except String GitState :=
  match lookupPath files (repo ++ [rel]) with
  | none => .error "Failed to add file to index"
  | some c => .ok { g with index := setAssoc g.index rel c }

/-- `GitRepo::commit`: snapshot the index as the tree of a new commit on
top of the current branch tip.  git2 allows empty commits and the identity
always resolves (config value or fixed fallback), so the model is total. -/
def gitCommit (g : GitState) (message : String) : GitState :=
  { index := g.index, commits := ⟨message, g.index⟩ :: g.commits }

/-- `GitRepo::get_last_commit_message`: message of the branch tip, an error
when there is no commit (`repo.head()` fails). -/
def gitLastCommitMessage (g : GitState) : Except String String :=
  match g.commits with
  | [] => .error "Failed to get HEAD"
  | c :: _ => .ok c.message

/-- `GitRepo::is_clean`: the status list is empty, i.e. working tree, index
and HEAD tree agree on every file (an untracked, modified, staged or
deleted file each produce a status entry). -/
def gitIsClean (files : List (Path × FileContent)) (repo : Path)
    (g : GitState) : Bool :=
  let wt := repoWorktree files repo
  let head := match g.commits with
    | [] => []
    | c :: _ => c.tree
  let keys := (wt.map Prod.fst ++ g.index.map Prod.fst ++ head.map Prod.fst).dedup
  keys.all fun k =>
    (lookupAssoc wt k == lookupAssoc g.index k) &&
    (lookupAssoc g.index k == lookupAssoc head k)

/-- Home directory of the host user (`dirs::home_dir`), an arbitrary fixed
location in the model. -/
def homeDir : Path := ["home", "user"]

/-- The fixed allowed base directory `~/.local/share/webtags` of
`validate_repo_path`. -/
def allowed_base : Path := homeDir ++ [".local", "share", "webtags"]

/-- Existence test of a path: a known directory or a file. -/
def pathIsThere (w : World) (p : Path) : Bool :=
  w.dirs.contains p || (lookupPath w.files p).isSome

/-- All prefixes of a path, the path itself included. -/
def ancestorsOf (p : Path) : List Path :=
  (List.range (p.length + 1)).map fun n => p.take n

/-- `std::fs::create_dir_all`: make the directory and all its ancestors
exist. -/
def createDirAll (w : World) (p : Path) : World :=
  { w with dirs := ancestorsOf p ++ w.dirs }

/-- Rust `Path::parent`: drop the final component; the root has no parent. -/
def parentOf (p : Path) : Option Path :=
  match p with
  | [] => none
  | _ => some p.dropLast

/-- Rendering of a path for response messages and status payloads. -/
def pathToString (p : Path) : String :=
  "/" ++ String.intercalate "/" p

/-- Caller-supplied repository path, relative or absolute
(`PathBuf::from` of the request string). -/
structure RepoPathInput where
  absolute : Bool
  comps : List String

/-- Function `validate_repo_path` of main.rs: create the allowed base if
missing, resolve a relative path against it, and confine: an existing path
is rejected when it lies outside the base; a non-existing path is rejected
only when its immediate parent exists and lies outside the base — when the
parent does not exist either, no containment check is performed and the
path is accepted.  Canonicalization is modelled as the identity: the model
filesystem has no symbolic links and paths are taken in normal form. -/
def validate_repo_path (w : World) (input : RepoPathInput) :
    Except String Path × World :=
  let w1 := if pathIsThere w allowed_base then w else createDirAll w allowed_base
  let resolved := if input.absolute then input.comps else allowed_base ++ input.comps
  if pathIsThere w1 resolved then
    if !(allowed_base.isPrefixOf resolved) then
      (.error "Repository path must be within the allowed base", w1)
    else (.ok resolved, w1)
  else
    match parentOf resolved with
    | none => (.ok resolved, w1)
    | some par =>
      if pathIsThere w1 par then
        if !(allowed_base.isPrefixOf par) then
          (.error "Repository path must be within the allowed base", w1)
        else (.ok resolved, w1)
      else (.ok resolved, w1)

/-- Resolution of a caller-supplied path against the allowed base, the
`resolved` value computed by `validate_repo_path`. -/
def resolveInput (input : RepoPathInput) : Path :=
  if input.absolute then input.comps else allowed_base ++ input.comps

/-- `handle_init` of main.rs: default the requested path to the relative
"default-repo", validate it, then clone (when a URL is given) or
open-or-init the repository at the validated path; on success record the
path in the session config.  `Repository::init` and `Repository::clone`
create the target directory (and, via `git_repository_init`'s MKPATH and
`clone`'s `create_dir_all` on the parent, its ancestors). -/
def handle_init (cfg : HostConfig) (env : Env) (w : World)
    (repo_path : Option RepoPathInput) (repo_url : Option String) :
    Response × World × HostConfig :=
  let requested := repo_path.getD ⟨false, ["default-repo"]⟩
  match validate_repo_path w requested with
  | (.error m, w1) =>
    (.error ("Invalid repository path: " ++ m) (some "ERR_INVALID_PATH"), w1, cfg)
  | (.ok p, w1) =>
    match repo_url with
    | some _ =>
      if env.cloneOk then
        let w2 := { createDirAll w1 p with git := some GitState.empty }
        (.success ("Repository initialized at " ++ pathToString p) none, w2,
          { cfg with repo_path := some p })
      else (.error "Failed to clone repository" (some "ERR_CLONE"), w1, cfg)
    | none =>
      let w2 := { createDirAll w1 p with git := some (w1.git.getD GitState.empty) }
      (.success ("Repository initialized at " ++ pathToString p) none, w2,
        { cfg with repo_path := some p })

/-- `handle_write` of main.rs: require an initialized session, parse the
request payload, validate, write the storage file (atomic, possibly
encrypted), open the repository, stage `bookmarks.json`, commit with the
counting message, and push only when an "origin" remote is configured. -/
def handle_write (cfg : HostConfig) (env : Env) (w : World) (data : Json) :
    Response × World :=
  match cfg.repo_path with
  | none => (.error "Repository not initialized" (some "ERR_NOT_INITIALIZED"), w)
  | some rp =>
    match BookmarksData.fromJson data with
    | none => (.error "Failed to parse bookmarks data" (some "ERR_PARSE"), w)
    | some bd =>
      match bd.validate with
      | .error m =>
        (.error ("Invalid bookmarks data: " ++ m) (some "ERR_VALIDATE"), w)
      | .ok () =>
        match write_to_file_with_encryption (rp ++ ["bookmarks.json"]) bd
            cfg.encryption_enabled env with
        | .error m =>
          (.error ("Failed to write bookmarks file: " ++ m)
            (some "ERR_WRITE_FILE"), w)
        | .ok ops =>
          let w1 := { w with files := applyFsOps w.files ops }
          let g := w1.git.getD GitState.empty
          match gitAddFile w1.files rp g "bookmarks.json" with
          | .error m =>
            (.error ("Failed to stage file: " ++ m) (some "ERR_GIT_ADD"),
              { w1 with git := some g })
          | .ok g1 =>
            let nb := bd.get_bookmarks.length
            let nt := bd.get_tags.length
            let msg := "Update bookmarks: " ++ toString nb ++ " bookmarks, "
              ++ toString nt ++ " tags"
            let w2 := { w1 with git := some (gitCommit g1 msg) }
            if w2.originRemote then
              if env.pushOk then (.success "Bookmarks saved and synced" none, w2)
              else (.error "Failed to push" (some "ERR_GIT_PUSH"), w2)
            else (.success "Bookmarks saved and synced" none, w2)

/-- `handle_read` of main.rs: require an initialized session; a missing
storage file yields an empty document, otherwise the file is read with the
session's encryption flag and the document is returned serialized. -/
def handle_read (cfg : HostConfig) (env : Env) (w : World) : Response × World :=
  match cfg.repo_path with
  | none => (.error "Repository not initialized" (some "ERR_NOT_INITIALIZED"), w)
  | some rp =>
    match lookupPath w.files (rp ++ ["bookmarks.json"]) with
    | none =>
      (.success "No bookmarks file found, returning empty data"
        (some BookmarksData.new.toJson), w)
    | some _ =>
      match read_from_file_with_encryption w.files (rp ++ ["bookmarks.json"])
          cfg.encryption_enabled env with
      | .error m =>
        (.error ("Failed to read bookmarks file: " ++ m) (some "ERR_READ_FILE"), w)
      | .ok d => (.success "Bookmarks loaded" (some d.toJson), w)

/-- `handle_sync` of main.rs: require an initialized session and a remote,
then pull.  The pull's effect on the working tree (fast-forward or theirs
merge) happens on the remote exchange, which is outside this model; only
its success or failure is represented. -/
def handle_sync (cfg : HostConfig) (env : Env) (w : World) : Response × World :=
  match cfg.repo_path with
  | none => (.error "Repository not initialized" (some "ERR_NOT_INITIALIZED"), w)
  | some _ =>
    let w1 := { w with git := some (w.git.getD GitState.empty) }
    if !w1.originRemote then
      (.error "No remote configured" (some "ERR_NO_REMOTE"), w1)
    else if env.pullOk then (.success "Synced with remote" none, w1)
    else (.error "Failed to pull" (some "ERR_GIT_PULL"), w1)

/-- `handle_status` of main.rs: before `Init` has succeeded it reports a
Success result with an initialized-false payload; afterwards it opens the
repository and reports cleanliness, remote presence, last commit message
and the encryption flag. -/
def handle_status (cfg : HostConfig) (w : World) : Response × World :=
  match cfg.repo_path with
  | none =>
    (.success "Not initialized" (some (.jobj [("initialized", .jbool false)])), w)
  | some rp =>
    let g := w.git.getD GitState.empty
    let w1 := { w with git := some g }
    let clean := gitIsClean w1.files rp g
    let last_commit := match gitLastCommitMessage g with
      | .ok m => Json.jstr m
      | .error _ => Json.jnull
    (.success "Status retrieved" (some (.jobj
      [("initialized", .jbool true),
       ("repo_path", .jstr (pathToString rp)),
       ("is_clean", .jbool clean),
       ("has_remote", .jbool w1.originRemote),
       ("last_commit", last_commit),
       ("encryption_enabled", .jbool cfg.encryption_enabled)])), w1)

/-! ## Scenario fixtures

Concrete documents, worlds and environments used by the counterexamples and
witnesses below. -/

/-- Tag of the end-to-end scenario, matching the shape produced by
`create_tag("rust", Some("#3b82f6"), None)` with a fixed identifier. -/
def scenarioTag : Resource := .tag "tag-1" ⟨"rust", some "#3b82f6", none⟩ none

/-- Bookmark of the end-to-end scenario, tagged with the scenario tag. -/
def scenarioBookmark : Resource :=
  .bookmark "bm-1"
    ⟨"https://example.com", "Example", ⟨"2024-01-01T00:00:00Z"⟩, none, none⟩
    (some ⟨some ⟨[⟨"tag", "tag-1"⟩]⟩⟩)

/-- Document with exactly one bookmark (primary) tagged with one tag
(included), as `add_bookmark` and `add_tag` would build it. -/
def scenarioDoc : BookmarksData := ⟨⟨"1.1"⟩, [scenarioBookmark], some [scenarioTag]⟩

/-- Repository directory of the end-to-end scenario, inside the allowed
base. -/
def scenarioRepo : Path := allowed_base ++ ["repo"]

/-- Storage file of the end-to-end scenario. -/
def scenarioFile : Path := scenarioRepo ++ ["bookmarks.json"]

/-- Fresh working tree: empty file map, repository directory existing, a
freshly initialized repository, no remote. -/
def scenarioWorld : World :=
  { files := [], dirs := ancestorsOf scenarioRepo, git := some GitState.empty,
    originRemote := false }

/-- Session configured on the scenario repository, encryption off. -/
def scenarioConfig : HostConfig := ⟨some scenarioRepo, false⟩

/-- Environment with no stored key and a fixed 12-byte nonce. -/
def scenarioEnv : Env := ⟨none, List.replicate 12 0, by simp, false, false, false⟩

/-- Environment holding a 32-byte key in the secret store. -/
def keyedEnv : Env :=
  ⟨some (List.replicate 32 0), List.replicate 12 0, by simp, false, false, false⟩

/-- Result of the scenario write action. -/
def scenarioAfterWrite : Response × World :=
  handle_write scenarioConfig scenarioEnv scenarioWorld scenarioDoc.toJson

/-- Document whose auxiliary (included) list holds a tag with a name
containing both forbidden characters. -/
def includedBadTagDoc : BookmarksData :=
  ⟨⟨"1.1"⟩, [], some [.tag "t1" ⟨"<script>", none, none⟩ none]⟩

/-- The same malformed tag placed in the primary list instead. -/
def primaryBadTagDoc : BookmarksData :=
  ⟨⟨"1.1"⟩, [.tag "t1" ⟨"<script>", none, none⟩ none], none⟩

/-- Document with a bookmark whose URL has a disallowed scheme. -/
def invalidUrlDoc : BookmarksData :=
  ⟨⟨"1.1"⟩, [.bookmark "b1" ⟨"ftp://example.com", "T", ⟨"2024-01-01T00:00:00Z"⟩, none, none⟩ none], none⟩

/-- Document with a two-tag parent cycle, as in the source's
`test_circular_reference_in_breadcrumb`. -/
def cyclicDoc : BookmarksData :=
  ⟨⟨"1.1"⟩, [],
    some
      [.tag "tag1" ⟨"Tag 1", none, none⟩ (some ⟨some ⟨some ⟨"tag", "tag2"⟩⟩⟩),
       .tag "tag2" ⟨"Tag 2", none, none⟩ (some ⟨some ⟨some ⟨"tag", "tag1"⟩⟩⟩)]⟩

/-- Envelope with the encrypted flag set, as written by `encrypt`. -/
def envelope0 : EncryptedData :=
  ⟨"1", true, "AES-256-GCM", List.replicate 12 0,
    ⟨List.replicate 32 0, List.replicate 12 0, none⟩⟩

/-- World in which only the allowed base (and its ancestors) exist. -/
def freshBaseWorld : World :=
  { files := [], dirs := ancestorsOf allowed_base, git := none,
    originRemote := false }

/-- World with an additional existing directory tree outside the base. -/
def outsideDirWorld : World :=
  { files := [], dirs := ancestorsOf allowed_base ++ [["out"], ["out", "repo"]],
    git := none, originRemote := false }

/-! ## Serde codec round-trip -/

theorem resourceIdentifier_roundtrip (r : ResourceIdentifier) :
    ResourceIdentifier.fromJson r.toJson = some r := rfl

theorem mapMOpt_of_roundtrip {α : Type} (toJ : α → Json)
    (fromJ : Json → Option α) (hr : ∀ a, fromJ (toJ a) = some a)
    (xs : List α) : mapMOpt fromJ (xs.map toJ) = some xs := by
  induction xs with
  | nil => rfl
  | cons a xs ih => simp [mapMOpt, hr, ih]

theorem relationshipData_roundtrip (rd : RelationshipData) :
    RelationshipData.fromJson rd.toJson = some rd := by
  cases rd with
  | mk l =>
    simp [RelationshipData.toJson, RelationshipData.fromJson, lookupAssoc,
      mapMOpt_of_roundtrip ResourceIdentifier.toJson
        ResourceIdentifier.fromJson resourceIdentifier_roundtrip]

theorem bookmarkRelationships_roundtrip (br : BookmarkRelationships) :
    BookmarkRelationships.fromJson br.toJson = some br := by
  cases br with
  | mk t =>
    cases t with
    | none => rfl
    | some rd =>
      have hrd := relationshipData_roundtrip rd
      cases rd with
      | mk l =>
        simp [RelationshipData.toJson] at hrd
        simp [BookmarkRelationships.toJson, BookmarkRelationships.fromJson,
          RelationshipData.toJson, optEntry, optField, lookupAssoc, hrd]

theorem parentRelationship_roundtrip (p : ParentRelationship) :
    ParentRelationship.fromJson p.toJson = some p := by
  cases p with
  | mk d =>
    cases d with
    | none => rfl
    | some r => cases r with | mk t i => rfl

theorem tagRelationships_roundtrip (tr : TagRelationships) :
    TagRelationships.fromJson tr.toJson = some tr := by
  cases tr with
  | mk p =>
    cases p with
    | none => rfl
    | some pr =>
      cases pr with
      | mk d =>
        cases d with
        | none => rfl
        | some r => cases r with | mk t i => rfl

theorem bookmarkAttributes_roundtrip (a : BookmarkAttributes) :
    BookmarkAttributes.fromJson a.toJson = some a := by
  cases a with
  | mk url title created modified notes =>
    cases modified <;> cases notes <;> rfl

theorem tagAttributes_roundtrip (a : TagAttributes) :
    TagAttributes.fromJson a.toJson = some a := by
  cases a with
  | mk name color description =>
    cases color <;> cases description <;> rfl

theorem resource_roundtrip (r : Resource) :
    Resource.fromJson r.toJson = some r := by
  cases r with
  | bookmark id attrs rels =>
    cases rels with
    | none =>
      simp [Resource.toJson, Resource.fromJson, optEntry, optField,
        lookupAssoc, Json.asStr, bookmarkAttributes_roundtrip]
    | some br =>
      have hbr := bookmarkRelationships_roundtrip br
      obtain ⟨t⟩ := br
      simp [BookmarkRelationships.toJson, optEntry] at hbr
      simp [Resource.toJson, Resource.fromJson, optEntry, optField,
        lookupAssoc, Json.asStr, bookmarkAttributes_roundtrip,
        BookmarkRelationships.toJson, hbr]
  | tag id attrs rels =>
    cases rels with
    | none =>
      simp [Resource.toJson, Resource.fromJson, optEntry, optField,
        lookupAssoc, Json.asStr, tagAttributes_roundtrip]
    | some tr =>
      have htr := tagRelationships_roundtrip tr
      obtain ⟨p⟩ := tr
      simp [TagRelationships.toJson, optEntry] at htr
      simp [Resource.toJson, Resource.fromJson, optEntry, optField,
        lookupAssoc, Json.asStr, tagAttributes_roundtrip,
        TagRelationships.toJson, htr]

theorem bookmarksData_roundtrip (d : BookmarksData) :
    BookmarksData.fromJson d.toJson = some d := by
  cases d with
  | mk v data included =>
    cases v with
    | mk ver =>
      cases included with
      | none =>
        simp [BookmarksData.toJson, BookmarksData.fromJson, optEntry,
          optField, lookupAssoc, Json.asStr,
          mapMOpt_of_roundtrip Resource.toJson Resource.fromJson
            resource_roundtrip]
      | some inc =>
        simp [BookmarksData.toJson, BookmarksData.fromJson, optEntry,
          optField, lookupAssoc, Json.asStr,
          mapMOpt_of_roundtrip Resource.toJson Resource.fromJson
            resource_roundtrip]


/-! ## Breadcrumb loop bounds -/

theorem length_filter_not_mem_pos (l v : List String) (c : String)
    (hc : c ∈ l) (hcv : c ∉ v) :
    0 < (l.filter fun k => decide (k ∉ v)).length := by
  have hm : c ∈ l.filter fun k => decide (k ∉ v) :=
    List.mem_filter.mpr ⟨hc, by simpa using hcv⟩
  exact List.length_pos.mpr (List.ne_nil_of_mem hm)

theorem breadcrumb_loop_length_ge
    (m : List (String × (TagAttributes × Option TagRelationships)))
    (c : String) (v a : List String) :
    a.length ≤ (breadcrumb_loop m c v a).length := by
  refine breadcrumb_loop.induct m
    (fun c v a => a.length ≤ (breadcrumb_loop m c v a).length)
    ?_ ?_ ?_ ?_ ?_ ?_ c v a
  · intro c v a h
    unfold breadcrumb_loop
    rw [if_pos h]
  · intro c v a h hl
    unfold breadcrumb_loop
    rw [if_neg h]
    split <;> simp_all
  · intro c v a h pr hl rels h2 prel h3 pid h4 ih
    unfold breadcrumb_loop
    rw [if_neg h]
    split
    · simp_all
    · rename_i pr' heq
      have hpp : pr = pr' := Option.some.inj (hl.symm.trans heq)
      subst hpp
      simp only [h2, h3, h4]
      exact le_trans (by simp) ih
  · intro c v a h pr hl rels h2 prel h3 h4
    unfold breadcrumb_loop
    rw [if_neg h]
    split
    · simp_all
    · rename_i pr' heq
      have hpp : pr = pr' := Option.some.inj (hl.symm.trans heq)
      subst hpp
      simp only [h2, h3, h4]
      simp
  · intro c v a h pr hl rels h2 h3
    unfold breadcrumb_loop
    rw [if_neg h]
    split
    · simp_all
    · rename_i pr' heq
      have hpp : pr = pr' := Option.some.inj (hl.symm.trans heq)
      subst hpp
      simp only [h2, h3]
      simp
  · intro c v a h pr hl h2
    unfold breadcrumb_loop
    rw [if_neg h]
    split
    · simp_all
    · rename_i pr' heq
      have hpp : pr = pr' := Option.some.inj (hl.symm.trans heq)
      subst hpp
      simp only [h2]
      simp

theorem breadcrumb_loop_length_le
    (m : List (String × (TagAttributes × Option TagRelationships)))
    (c : String) (v a : List String) :
    (breadcrumb_loop m c v a).length ≤
      a.length + ((m.map Prod.fst).filter fun k => decide (k ∉ v)).length := by
  refine breadcrumb_loop.induct m
    (fun c v a => (breadcrumb_loop m c v a).length ≤
      a.length + ((m.map Prod.fst).filter fun k => decide (k ∉ v)).length)
    ?_ ?_ ?_ ?_ ?_ ?_ c v a
  · intro c v a h
    unfold breadcrumb_loop
    rw [if_pos h]
    omega
  · intro c v a h hl
    unfold breadcrumb_loop
    rw [if_neg h]
    split <;> simp_all
  · intro c v a h pr hl rels h2 prel h3 pid h4 ih
    unfold breadcrumb_loop
    rw [if_neg h]
    split
    · simp_all
    · rename_i pr' heq
      have hpp : pr = pr' := Option.some.inj (hl.symm.trans heq)
      subst hpp
      simp only [h2, h3, h4]
      have hlt := length_filter_not_mem_lt (m.map Prod.fst) v c
        (lookupAssoc_mem m c pr hl) h
      simp only [List.length_cons] at ih
      omega
  · intro c v a h pr hl rels h2 prel h3 h4
    unfold breadcrumb_loop
    rw [if_neg h]
    split
    · simp_all
    · rename_i pr' heq
      have hpp : pr = pr' := Option.some.inj (hl.symm.trans heq)
      subst hpp
      simp only [h2, h3, h4, List.length_cons]
      have hpos := length_filter_not_mem_pos (m.map Prod.fst) v c
        (lookupAssoc_mem m c pr hl) h
      omega
  · intro c v a h pr hl rels h2 h3
    unfold breadcrumb_loop
    rw [if_neg h]
    split
    · simp_all
    · rename_i pr' heq
      have hpp : pr = pr' := Option.some.inj (hl.symm.trans heq)
      subst hpp
      simp only [h2, h3, List.length_cons]
      have hpos := length_filter_not_mem_pos (m.map Prod.fst) v c
        (lookupAssoc_mem m c pr hl) h
      omega
  · intro c v a h pr hl h2
    unfold breadcrumb_loop
    rw [if_neg h]
    split
    · simp_all
    · rename_i pr' heq
      have hpp : pr = pr' := Option.some.inj (hl.symm.trans heq)
      subst hpp
      simp only [h2, List.length_cons]
      have hpos := length_filter_not_mem_pos (m.map Prod.fst) v c
        (lookupAssoc_mem m c pr hl) h
      omega

theorem breadcrumb_loop_ne_nil
    (m : List (String × (TagAttributes × Option TagRelationships)))
    (c : String) (v a : List String)
    (pr : TagAttributes × Option TagRelationships)
    (hc : c ∉ v) (hl : lookupAssoc m c = some pr) :
    breadcrumb_loop m c v a ≠ [] := by
  have hpos : 0 < (breadcrumb_loop m c v a).length := by
    unfold breadcrumb_loop
    rw [if_neg hc]
    split
    · simp_all
    · rename_i pr' heq
      split
      · rename_i rels h2
        split
        · rename_i prel h3
          split
          · rename_i pid h4
            have hge := breadcrumb_loop_length_ge m pid.id (c :: v)
              (pr'.1.name :: a)
            simp only [List.length_cons] at hge
            omega
          · simp
        · simp
      · simp
  exact List.ne_nil_of_length_pos hpos

theorem setAssoc_length_le {α : Type} (m : List (String × α)) (k : String)
    (v : α) : (setAssoc m k v).length ≤ m.length + 1 := by
  induction m with
  | nil => simp [setAssoc]
  | cons hd tl ih =>
    rw [setAssoc]
    split
    · simp
    · simp only [List.length_cons]
      omega

theorem foldl_setAssoc_length_le {α : Type} :
    ∀ (l : List (String × α)) (m0 : List (String × α)),
      (l.foldl (fun m kv => setAssoc m kv.1 kv.2) m0).length ≤
        m0.length + l.length := by
  intro l
  induction l with
  | nil => intro m0; simp
  | cons kv l ih =>
    intro m0
    simp only [List.foldl_cons, List.length_cons]
    have h1 := ih (setAssoc m0 kv.1 kv.2)
    have h2 := setAssoc_length_le m0 kv.1 kv.2
    omega

theorem tags_by_id_length_le (d : BookmarksData) :
    d.tags_by_id.length ≤ d.get_tags.length := by
  unfold BookmarksData.tags_by_id
  have h1 := foldl_setAssoc_length_le
    (d.get_tags.filterMap fun r =>
      match r with
      | .tag id attrs rels => some (id, (attrs, rels))
      | .bookmark _ _ _ => none) []
  have h2 := List.length_filterMap_le
    (fun r =>
      match r with
      | Resource.tag id attrs rels => some (id, (attrs, rels))
      | Resource.bookmark _ _ _ => none) d.get_tags
  simp only [List.length_nil, Nat.zero_add] at h1
  exact le_trans h1 h2

/-! ## Claims -/

/-- C1: the claim states that `validate()` enforces every per-field
invariant of the data model for every resource in both the primary list and
the auxiliary (included) list, and in particular fails on a document whose
included list holds a tag with an invalid name.  The code does not: the
included-list loop of `BookmarksData::validate` extracts only identifiers
and checks only their uniqueness, so the document whose included list holds
the tag named "<script>" validates successfully, while the identical tag in
the primary list is rejected with the HTML-characters error.  This theorem
evaluates `validate` at that failing input, exhibiting the divergence. -/
theorem claim_C1_included_invariants_skipped :
    includedBadTagDoc.validate = .ok () ∧
    primaryBadTagDoc.validate = .error "Tag name cannot contain HTML characters" :=
  ⟨rfl, rfl⟩

/-- C2: `get_tag_breadcrumb` terminates on every document (it is a total
function of this development, well-founded on the unvisited keys of the
tag map); the walk returns the accumulated partial path the instant the
current identifier is already in the visited set; when the queried
identifier names a tag of the document (in particular one on a parent
cycle) the result is non-empty; and the result is always finite with length
at most the number of tags of the document. -/
theorem claim_C2_breadcrumb_cycle_safe (d : BookmarksData) (id : String) :
    (∀ (v acc : List String), id ∈ v →
      breadcrumb_loop d.tags_by_id id v acc = acc) ∧
    ((lookupAssoc d.tags_by_id id).isSome → d.get_tag_breadcrumb id ≠ []) ∧
    (d.get_tag_breadcrumb id).length ≤ d.get_tags.length := by
  refine ⟨?_, ?_, ?_⟩
  · intro v acc hv
    unfold breadcrumb_loop
    rw [if_pos hv]
  · intro hs
    obtain ⟨pr, hl⟩ := Option.isSome_iff_exists.mp hs
    exact breadcrumb_loop_ne_nil d.tags_by_id id [] [] pr
      (List.not_mem_nil id) hl
  · have h1 := breadcrumb_loop_length_le d.tags_by_id id [] []
    have h2 : ((d.tags_by_id.map Prod.fst).filter
        fun k => decide (k ∉ ([] : List String)))
        = d.tags_by_id.map Prod.fst := by
      apply List.filter_eq_self.mpr
      intro b _
      simp
    rw [h2] at h1
    simp only [List.length_nil, List.length_map, Nat.zero_add] at h1
    exact le_trans h1 (tags_by_id_length_le d)

/-- Witness for C2 at the two-tag parent cycle of the source's own test:
"tag1" is in the map, the breadcrumb is non-empty and bounded by the number
of tags. -/
theorem claim_C2_breadcrumb_cycle_safe_witness :
    (lookupAssoc cyclicDoc.tags_by_id "tag1").isSome = true ∧
    cyclicDoc.get_tag_breadcrumb "tag1" ≠ [] ∧
    (cyclicDoc.get_tag_breadcrumb "tag1").length ≤ cyclicDoc.get_tags.length :=
  ⟨rfl, (claim_C2_breadcrumb_cycle_safe cyclicDoc "tag1").2.1 (by rfl),
    (claim_C2_breadcrumb_cycle_safe cyclicDoc "tag1").2.2⟩

/-- C9: `add_bookmark` rejects the Tag variant and `add_tag` rejects the
Bookmark variant, each with its kind-mismatch error and without producing a
modified document; `add_bookmark` on a Bookmark appends it to the primary
list leaving `included` untouched, and `add_tag` on a Tag appends it to the
auxiliary (included) list (created when absent) and never to the primary
list. -/
theorem claim_C9_add_kind_dispatch :
    (∀ (d : BookmarksData) (id : String) (a : TagAttributes)
        (r : Option TagRelationships),
      d.add_bookmark (.tag id a r) = .error "Expected bookmark resource") ∧
    (∀ (d : BookmarksData) (id : String) (a : BookmarkAttributes)
        (r : Option BookmarkRelationships),
      d.add_tag (.bookmark id a r) = .error "Expected tag resource") ∧
    (∀ (d : BookmarksData) (id : String) (a : BookmarkAttributes)
        (r : Option BookmarkRelationships),
      d.add_bookmark (.bookmark id a r) =
        .ok ⟨d.jsonapi, d.data ++ [.bookmark id a r], d.included⟩) ∧
    (∀ (d : BookmarksData) (id : String) (a : TagAttributes)
        (r : Option TagRelationships),
      d.add_tag (.tag id a r) =
        .ok ⟨d.jsonapi, d.data, some (d.included.getD [] ++ [.tag id a r])⟩) :=
  ⟨fun _ _ _ _ => rfl, fun _ _ _ _ => rfl, fun _ _ _ _ => rfl,
    fun _ _ _ _ => rfl⟩

/-- C10: in a session where no Init has succeeded (`repo_path` is none),
Status returns a Success result whose payload reports initialized false,
while Write, Read and Sync each return an Error with the not-initialized
code; all four leave the world (filesystem and git state) untouched. -/
theorem claim_C10_not_initialized (cfg : HostConfig) (env : Env) (w : World)
    (input : Json) (h : cfg.repo_path = none) :
    handle_status cfg w =
      (.success "Not initialized"
        (some (.jobj [("initialized", .jbool false)])), w) ∧
    handle_write cfg env w input =
      (.error "Repository not initialized" (some "ERR_NOT_INITIALIZED"), w) ∧
    handle_read cfg env w =
      (.error "Repository not initialized" (some "ERR_NOT_INITIALIZED"), w) ∧
    handle_sync cfg env w =
      (.error "Repository not initialized" (some "ERR_NOT_INITIALIZED"), w) := by
  refine ⟨?_, ?_, ?_, ?_⟩ <;>
    simp [handle_status, handle_write, handle_read, handle_sync, h]

/-- Witness for C10 on a concrete uninitialized session. -/
theorem claim_C10_not_initialized_witness :
    handle_status ⟨none, false⟩ freshBaseWorld =
      (.success "Not initialized"
        (some (.jobj [("initialized", .jbool false)])), freshBaseWorld) ∧
    handle_write ⟨none, false⟩ scenarioEnv freshBaseWorld .jnull =
      (.error "Repository not initialized" (some "ERR_NOT_INITIALIZED"),
        freshBaseWorld) ∧
    handle_read ⟨none, false⟩ scenarioEnv freshBaseWorld =
      (.error "Repository not initialized" (some "ERR_NOT_INITIALIZED"),
        freshBaseWorld) ∧
    handle_sync ⟨none, false⟩ scenarioEnv freshBaseWorld =
      (.error "Repository not initialized" (some "ERR_NOT_INITIALIZED"),
        freshBaseWorld) :=
  claim_C10_not_initialized ⟨none, false⟩ scenarioEnv freshBaseWorld .jnull rfl

/-- C6 counterexample: `is_encrypted` does return an error on an existing
file whose bytes are not valid UTF-8 (`fs::read_to_string` fails before the
parse attempt), refuting "never returns an error" and "returns false for
arbitrary malformed content". -/
theorem claim_C6_is_encrypted_counterexample :
    is_encrypted [(["tmp", "blob"], FileContent.binary)] ["tmp", "blob"]
      = .error "Failed to read file" :=
  rfl

/-- C6 amended: `is_encrypted` returns Ok false for a missing path, a
plaintext document file and any readable text not parsing as the envelope
shape; it returns Ok of the envelope's encrypted flag when the content does
parse as the envelope (Ok true exactly for encrypted=true); and it returns
an error only when the existing file's bytes cannot be read as UTF-8 text. -/
theorem claim_C6_is_encrypted_amended (fs : List (Path × FileContent))
    (p : Path) :
    (lookupPath fs p = none → is_encrypted fs p = .ok false) ∧
    (∀ j, lookupPath fs p = some (.docJson j) → is_encrypted fs p = .ok false) ∧
    (lookupPath fs p = some .text → is_encrypted fs p = .ok false) ∧
    (∀ e, lookupPath fs p = some (.env e) →
      is_encrypted fs p = .ok e.encrypted) ∧
    (lookupPath fs p = some .binary →
      is_encrypted fs p = .error "Failed to read file") := by
  refine ⟨?_, ?_, ?_, ?_, ?_⟩
  · intro h; simp [is_encrypted, h]
  · intro j h; simp [is_encrypted, h]
  · intro h; simp [is_encrypted, h]
  · intro e h; simp [is_encrypted, h]
  · intro h; simp [is_encrypted, h]

/-- Witness for amended C6: a missing path gives Ok false and an envelope
file with encrypted=true gives Ok true. -/
theorem claim_C6_is_encrypted_amended_witness :
    is_encrypted [] ["x"] = .ok false ∧
    is_encrypted [(["y"], .env envelope0)] ["y"] = .ok true := by
  refine ⟨(claim_C6_is_encrypted_amended [] ["x"]).1 rfl, ?_⟩
  have h := (claim_C6_is_encrypted_amended
    [(["y"], .env envelope0)] ["y"]).2.2.2.1 envelope0 rfl
  simpa [envelope0] using h

theorem decode_and_validate_ok (j : Json) (d : BookmarksData)
    (h : decode_and_validate j = .ok d) : d.validate = .ok () := by
  unfold decode_and_validate at h
  split at h
  · exact absurd h (by simp)
  · rename_i d' hd
    split at h
    · exact absurd h (by simp)
    · rename_i hv
      cases h
      exact hv

theorem lookupPath_setPath_self (fs : List (Path × FileContent)) (p : Path)
    (c : FileContent) : lookupPath (setPath fs p c) p = some c := by
  simp [setPath, lookupPath]

/-- C7: reading a file that holds an envelope with the encrypted flag set
while the caller has not enabled encryption fails with the explicit
encrypted-but-not-enabled error; and every successful read returns a
document on which `validate` succeeded. -/
theorem claim_C7_read_guards (fs : List (Path × FileContent)) (p : Path)
    (env : Env) :
    (∀ e, lookupPath fs p = some (.env e) → e.encrypted = true →
      read_from_file_with_encryption fs p false env =
        .error "Bookmarks file is encrypted but encryption is not enabled. Enable encryption to access your bookmarks.") ∧
    (∀ (enc : Bool) (d : BookmarksData),
      read_from_file_with_encryption fs p enc env = .ok d →
      d.validate = .ok ()) := by
  constructor
  · intro e he henc
    simp [read_from_file_with_encryption, is_encrypted, he, henc,
      exceptBoolOrFalse]
  · intro enc d h
    cases hl : lookupPath fs p with
    | none =>
      simp [read_from_file_with_encryption, is_encrypted, hl,
        exceptBoolOrFalse] at h
    | some c =>
      cases c with
      | docJson j =>
        simp [read_from_file_with_encryption, is_encrypted, hl,
          exceptBoolOrFalse] at h
        exact decode_and_validate_ok _ _ h
      | text =>
        simp [read_from_file_with_encryption, is_encrypted, hl,
          exceptBoolOrFalse] at h
      | binary =>
        simp [read_from_file_with_encryption, is_encrypted, hl,
          exceptBoolOrFalse] at h
      | env e =>
        by_cases he : e.encrypted = true
        · cases enc with
          | false =>
            simp [read_from_file_with_encryption, is_encrypted, hl, he,
              exceptBoolOrFalse] at h
          | true =>
            cases hr : EncryptionManager.read_encrypted_file ⟨true⟩ env fs p with
            | error m =>
              simp [read_from_file_with_encryption, is_encrypted, hl, he,
                exceptBoolOrFalse, hr] at h
            | ok o =>
              cases o with
              | none =>
                simp [read_from_file_with_encryption, is_encrypted, hl, he,
                  exceptBoolOrFalse, hr] at h
              | some j =>
                simp [read_from_file_with_encryption, is_encrypted, hl, he,
                  exceptBoolOrFalse, hr] at h
                exact decode_and_validate_ok _ _ h
        · simp [read_from_file_with_encryption, is_encrypted, hl, he,
            exceptBoolOrFalse] at h

/-- Witness for C7: an encrypted envelope read without encryption fails with
the explicit error, and a successful plaintext read of the scenario
document implies its validity. -/
theorem claim_C7_read_guards_witness :
    read_from_file_with_encryption [(["f"], .env envelope0)] ["f"] false
      scenarioEnv =
      .error "Bookmarks file is encrypted but encryption is not enabled. Enable encryption to access your bookmarks." ∧
    scenarioDoc.validate = .ok () :=
  ⟨(claim_C7_read_guards [(["f"], .env envelope0)] ["f"] scenarioEnv).1
      envelope0 rfl rfl,
    (claim_C7_read_guards [(["f"], .docJson scenarioDoc.toJson)] ["f"]
      scenarioEnv).2 false scenarioDoc (by rfl)⟩

/-- C8: `write_to_file_with_encryption` validates before any serialization
or filesystem operation — a document failing validation yields exactly the
validation error and an empty operation trace, so the target file is
untouched (the orchestrator applies the returned operations only on
success) — and every successful call, plaintext or encrypted, emits exactly
the atomic-replace pair: a write of the full content to the sibling
temporary path followed by the rename of that temporary path onto the
target. -/
theorem claim_C8_write_validates_then_atomic (p : Path) (d : BookmarksData)
    (enc : Bool) (env : Env) :
    (∀ m, d.validate = .error m →
      write_to_file_with_encryption p d enc env = .error m) ∧
    (∀ ops, write_to_file_with_encryption p d enc env = .ok ops →
      ∃ c, ops = [.write (with_tmp_extension p) c,
                  .rename (with_tmp_extension p) p]) := by
  constructor
  · intro m hm
    simp [write_to_file_with_encryption, hm]
  · intro ops h
    unfold write_to_file_with_encryption at h
    split at h
    · exact absurd h (by simp)
    · split at h
      · split at h
        · exact absurd h (by simp)
        · rename_i e he
          cases h
          exact ⟨.env e, rfl⟩
      · cases h
        exact ⟨.docJson d.toJson, rfl⟩

/-- Witness for C8: the invalid-URL document is rejected with its
validation error and no operation, and the scenario document's plaintext
write emits exactly the temporary-write plus rename pair. -/
theorem claim_C8_write_validates_then_atomic_witness :
    invalidUrlDoc.validate =
      .error "Unsafe URL scheme. Only http and https are allowed." ∧
    write_to_file_with_encryption scenarioFile invalidUrlDoc false scenarioEnv =
      .error "Unsafe URL scheme. Only http and https are allowed." ∧
    (∃ c, [FsOp.write (with_tmp_extension scenarioFile)
            (.docJson scenarioDoc.toJson),
           FsOp.rename (with_tmp_extension scenarioFile) scenarioFile] =
      [.write (with_tmp_extension scenarioFile) c,
       .rename (with_tmp_extension scenarioFile) scenarioFile]) :=
  ⟨rfl,
    (claim_C8_write_validates_then_atomic scenarioFile invalidUrlDoc false
      scenarioEnv).1 _ rfl,
    (claim_C8_write_validates_then_atomic scenarioFile scenarioDoc false
      scenarioEnv).2 _ rfl⟩

/-- C5: for every document that passes `validate`, decoding the encoding is
the identity (serde codec round-trip), and writing then reading the file
with the same encryption setting returns the same document, on both the
plaintext path and the encrypted-envelope path (the latter given a 32-byte
key in the secret store). -/
theorem claim_C5_roundtrip (d : BookmarksData) (fs : List (Path × FileContent))
    (p : Path) (env : Env) (key : List Nat) (hv : d.validate = .ok ())
    (hk : env.keychain = some key) (hklen : key.length = 32) :
    BookmarksData.fromJson d.toJson = some d ∧
    (∃ ops, write_to_file_with_encryption p d false env = .ok ops ∧
      read_from_file_with_encryption (applyFsOps fs ops) p false env = .ok d) ∧
    (∃ ops, write_to_file_with_encryption p d true env = .ok ops ∧
      read_from_file_with_encryption (applyFsOps fs ops) p true env = .ok d) := by
  refine ⟨bookmarksData_roundtrip d, ?_, ?_⟩
  · refine ⟨[.write (with_tmp_extension p) (.docJson d.toJson),
             .rename (with_tmp_extension p) p], ?_, ?_⟩
    · simp [write_to_file_with_encryption, hv]
    · simp only [applyFsOps, List.foldl, applyFsOp, lookupPath_setPath_self]
      simp [read_from_file_with_encryption, is_encrypted,
        lookupPath_setPath_self, exceptBoolOrFalse, decode_and_validate,
        bookmarksData_roundtrip d, hv]
  · refine ⟨[.write (with_tmp_extension p)
              (.env ⟨"1", true, "AES-256-GCM", env.nonce,
                aead_encrypt key env.nonce (some d.toJson)⟩),
             .rename (with_tmp_extension p) p], ?_, ?_⟩
    · simp [write_to_file_with_encryption, hv, EncryptionManager.encrypt,
        hk, hklen]
    · simp only [applyFsOps, List.foldl, applyFsOp, lookupPath_setPath_self]
      simp [read_from_file_with_encryption, is_encrypted,
        lookupPath_setPath_self, exceptBoolOrFalse,
        EncryptionManager.read_encrypted_file, EncryptionManager.decrypt,
        hk, hklen, env.nonce_len, aead_decrypt, aead_encrypt,
        decode_and_validate, bookmarksData_roundtrip d, hv]

/-- Witness for C5 at the scenario document, an empty filesystem and an
environment holding a 32-byte key. -/
theorem claim_C5_roundtrip_witness :
    BookmarksData.fromJson scenarioDoc.toJson = some scenarioDoc ∧
    (∃ ops, write_to_file_with_encryption scenarioFile scenarioDoc false
        keyedEnv = .ok ops ∧
      read_from_file_with_encryption (applyFsOps [] ops) scenarioFile false
        keyedEnv = .ok scenarioDoc) ∧
    (∃ ops, write_to_file_with_encryption scenarioFile scenarioDoc true
        keyedEnv = .ok ops ∧
      read_from_file_with_encryption (applyFsOps [] ops) scenarioFile true
        keyedEnv = .ok scenarioDoc) :=
  claim_C5_roundtrip scenarioDoc [] scenarioFile keyedEnv
    (List.replicate 32 0) rfl rfl rfl

/-- C4 counterexample: the absolute path /out/a/repo does not exist, nor do
/out/a and /out; its nearest existing ancestor is the root, which is
outside the allowed base; the claim demands an error, yet Init succeeds —
`validate_repo_path` performs no containment check when the immediate
parent of a non-existing path does not exist either — and the repository is
created outside the base, with the session now pointing at it. -/
theorem claim_C4_path_confinement_counterexample :
    pathIsThere freshBaseWorld ["out", "a", "repo"] = false ∧
    pathIsThere freshBaseWorld ["out", "a"] = false ∧
    pathIsThere freshBaseWorld ["out"] = false ∧
    pathIsThere freshBaseWorld [] = true ∧
    allowed_base.isPrefixOf ([] : Path) = false ∧
    (handle_init ⟨none, false⟩ scenarioEnv freshBaseWorld
        (some ⟨true, ["out", "a", "repo"]⟩) none).1
      = Response.success "Repository initialized at /out/a/repo" none ∧
    (handle_init ⟨none, false⟩ scenarioEnv freshBaseWorld
        (some ⟨true, ["out", "a", "repo"]⟩) none).2.2.repo_path
      = some ["out", "a", "repo"] :=
  ⟨rfl, rfl, rfl, rfl, rfl, rfl, rfl⟩

/-- C4 amended: provided the allowed base exists, Init rejects a
caller-supplied path with the invalid-path error — leaving the world and
session untouched, hence before any git or filesystem mutation — when the
resolved path exists and lies outside the base, and also when the resolved
path does not exist but its immediate parent exists and lies outside the
base.  (A non-existing path whose immediate parent also does not exist is
accepted without any containment check, as the counterexample shows.) -/
theorem claim_C4_path_confinement_amended (w : World) (input : RepoPathInput)
    (url : Option String) (cfg : HostConfig) (env : Env)
    (hb : pathIsThere w allowed_base = true) :
    (pathIsThere w (resolveInput input) = true →
      allowed_base.isPrefixOf (resolveInput input) = false →
      handle_init cfg env w (some input) url =
        (.error "Invalid repository path: Repository path must be within the allowed base"
          (some "ERR_INVALID_PATH"), w, cfg)) ∧
    (pathIsThere w (resolveInput input) = false →
      ∀ par, parentOf (resolveInput input) = some par →
        pathIsThere w par = true →
        allowed_base.isPrefixOf par = false →
        handle_init cfg env w (some input) url =
          (.error "Invalid repository path: Repository path must be within the allowed base"
            (some "ERR_INVALID_PATH"), w, cfg)) := by
  constructor
  · intro hres hpre
    simp [handle_init, validate_repo_path, hb, resolveInput] at hres hpre ⊢
    simp [hres, hpre]
  · intro hres par hpar hparthere hpre
    simp [handle_init, validate_repo_path, hb, resolveInput] at hres hpar ⊢
    simp [hres, hpar, hparthere, hpre]

/-- Witness for amended C4: an existing directory outside the base is
rejected, and a non-existing path whose existing parent is outside the base
is rejected. -/
theorem claim_C4_path_confinement_amended_witness :
    handle_init ⟨none, false⟩ scenarioEnv outsideDirWorld
        (some ⟨true, ["out", "repo"]⟩) none =
      (.error "Invalid repository path: Repository path must be within the allowed base"
        (some "ERR_INVALID_PATH"), outsideDirWorld, ⟨none, false⟩) ∧
    handle_init ⟨none, false⟩ scenarioEnv outsideDirWorld
        (some ⟨true, ["out", "newrepo"]⟩) none =
      (.error "Invalid repository path: Repository path must be within the allowed base"
        (some "ERR_INVALID_PATH"), outsideDirWorld, ⟨none, false⟩) :=
  ⟨(claim_C4_path_confinement_amended outsideDirWorld ⟨true, ["out", "repo"]⟩
      none ⟨none, false⟩ scenarioEnv rfl).1 rfl rfl,
    (claim_C4_path_confinement_amended outsideDirWorld
      ⟨true, ["out", "newrepo"]⟩ none ⟨none, false⟩ scenarioEnv rfl).2 rfl
      ["out"] rfl rfl rfl⟩

/-- C3: the end-to-end write scenario on a fresh working tree with the
document holding exactly one bookmark tagged with one tag: the Write action
succeeds, the storage file exists with the document's serialization, the
working tree is clean, the branch tip commit message reports the counts —
"Update bookmarks: 1 bookmarks, 1 tags", i.e. 1 bookmark(s) and 1 tag(s) —
and a subsequent Read succeeds returning the serialization of a document
equal to the one written. -/
theorem claim_C3_write_read_scenario :
    scenarioAfterWrite.1 = Response.success "Bookmarks saved and synced" none ∧
    lookupPath scenarioAfterWrite.2.files scenarioFile
      = some (.docJson scenarioDoc.toJson) ∧
    gitIsClean scenarioAfterWrite.2.files scenarioRepo
      (scenarioAfterWrite.2.git.getD GitState.empty) = true ∧
    gitLastCommitMessage (scenarioAfterWrite.2.git.getD GitState.empty)
      = .ok "Update bookmarks: 1 bookmarks, 1 tags" ∧
    (handle_read scenarioConfig scenarioEnv scenarioAfterWrite.2).1
      = Response.success "Bookmarks loaded" (some scenarioDoc.toJson) ∧
    BookmarksData.fromJson scenarioDoc.toJson = some scenarioDoc :=
  ⟨rfl, rfl, rfl, rfl, rfl, rfl⟩

end Webtags